import Mathlib

/-!
# Verification of the PathOGiST entry-point (`pathogist.py`)

A shallow embedding of the orchestration code in `pathogist.py` (the `all`,
`correlation` and `consensus` subcommands), together with spec-modelled
definitions of the correlation- and consensus-clustering solvers
(`pathogist.cluster.correlation` / `pathogist.cluster.consensus`), whose
source is not part of this repository snapshot.

External collaborators (`pathogist.io`, `pathogist.distance`) are modelled
as oracles supplied to the orchestration functions; file-system and logging
effects are recorded as events.
-/

set_option maxRecDepth 16000

namespace PathoGiST

/-! ## Python string primitives

Models of the Python `str` operations used by `pathogist.py`:
`str.rstrip()` (strip trailing whitespace, including the newline kept by
file iteration) and `str.split(sep)` for a one-character separator
(split on *every* occurrence of the separator, keeping empty fields;
`"".split('=') == ['']`). -/

/-- Python `str.rstrip()` on the character list of a string. -/
def pyRstripChars (s : List Char) : List Char :=
  (s.reverse.dropWhile Char.isWhitespace).reverse

/-- Python `str.rstrip()`. -/
def pyRstrip (s : String) : String :=
  ⟨pyRstripChars s.data⟩

/-- Python `str.split(sep)` for a single-character separator, on character
lists: splits at every occurrence of `sep`, keeping empty fields, so the
result always has (number of occurrences of `sep`) + 1 fields. -/
def pySplitChar (sep : Char) : List Char → List (List Char)
  | [] => [[]]
  | c :: rest =>
    if c = sep then [] :: pySplitChar sep rest
    else
      match pySplitChar sep rest with
      | [] => [[c]]
      | p :: ps => (c :: p) :: ps

/-- Python `str.split(sep)` for a single-character separator. -/
def pySplit (sep : Char) (s : String) : List String :=
  (pySplitChar sep s.data).map (fun l => ⟨l⟩)

/-! ## Python error model

Unhandled Python exceptions observed in the orchestration layer. Each one
terminates the process with a non-zero exit status. -/

/-- Unhandled Python exception kinds raised by the orchestration code. -/
inductive PyErr where
  /-- `ValueError` (e.g. unpacking `split('=')` into two names fails). -/
  | valueError
  /-- `AssertionError` from a failed `assert`. -/
  | assertionError
  /-- `TypeError` (e.g. building a `set` from unhashable elements). -/
  | typeError
  /-- `KeyError` from a missing dictionary key. -/
  | keyError
  deriving DecidableEq, Repr

/-- Python `assert cond`: raises `AssertionError` when `cond` is false. -/
def pyAssert (cond : Bool) : Except PyErr Unit :=
  if cond then .ok () else .error .assertionError

/-! ## Batch-list files (consensus subcommand, lines 113–117 and 132–135)

Each line of a batch-list file is processed as
`name, path = line.rstrip().split('=')` and the pair is inserted into a
`collections.OrderedDict` (insertion order preserved; re-inserting an
existing key updates the value in place). -/

/-- `name,path = line.rstrip().split('=')`: the stripped line is split on
every `'='` and unpacked into exactly two values; any other number of
fields raises `ValueError`. -/
def parseBatchLine (line : String) : Except PyErr (String × String) :=
  match pySplit '=' (pyRstrip line) with
  | [name, path] => .ok (name, path)
  | _ => .error .valueError

/-- `OrderedDict` insertion: an existing key keeps its position and gets the
new value; a new key is appended at the end. -/
def odInsert {β : Type} (d : List (String × β)) (k : String) (v : β) :
    List (String × β) :=
  if d.any (fun p => p.1 = k) then
    d.map (fun p => if p.1 = k then (k, v) else p)
  else d ++ [(k, v)]

/-- The loop body of `for line in file: name,path = line.rstrip().split('=');
d[name] = open(path)`, with the accumulated `OrderedDict` explicit and
`open` abstracted as `resolve`; the first malformed line aborts the whole
command with the unhandled exception. -/
def readBatchLoop {β : Type} (resolve : String → β)
    (acc : List (String × β)) :
    List String → Except PyErr (List (String × β))
  | [] => .ok acc
  | line :: rest =>
    match parseBatchLine line with
    | .error e => .error e
    | .ok (name, path) =>
      readBatchLoop resolve (odInsert acc name (resolve path)) rest

/-- The loop `for line in file: name,path = line.rstrip().split('=');
d[name] = open(path)`, starting from an empty `OrderedDict`. -/
def readBatchList {β : Type} (resolve : String → β) (lines : List String) :
    Except PyErr (List (String × β)) :=
  readBatchLoop resolve [] lines

/-- A batch line is well formed when its stripped text contains exactly one
`'='` (so the two-way unpack succeeds). -/
def wellFormedLine (line : String) : Prop :=
  (pyRstrip line).data.count '=' = 1

instance (line : String) : Decidable (wellFormedLine line) := by
  unfold wellFormedLine; infer_instance

/-- The modality names of the well-formed lines of a batch file, in file
order. -/
def batchNames (lines : List String) : List String :=
  lines.filterMap (fun l => ((parseBatchLine l).toOption).map (fun p => p.1))

/-! ## Consensus subcommand (lines 111–157)

The `consensus` subcommand reads two batch-list files (distance matrices
and clusterings), runs pairwise sample-set assertions over each collection,
reads the fine-clusterings name list, and calls
`pathogist.cluster.consensus`. The tabular values returned by
`pathogist.io.open_distance_file` / `open_clustering_file` are pandas
DataFrames; the only attributes the orchestration code reads are
`.columns.values` and `.index.values`. -/

/-- A pandas DataFrame as seen by the orchestration layer: its column
labels and its row-index labels. -/
structure PDFrame where
  columns : List String
  index : List String
  deriving DecidableEq, Repr

/-- Lexicographic comparison of strings by code point, the order Python's
`sorted` uses on `str`. -/
def strLeB : List Char → List Char → Bool
  | [], _ => true
  | _ :: _, [] => false
  | a :: as, b :: bs =>
    if a.toNat < b.toNat then true
    else if b.toNat < a.toNat then false
    else strLeB as bs

/-- Python `s <= t` on strings. -/
def pyStrLe (s t : String) : Bool := strLeB s.data t.data

/-- Python `sorted(list(xs))` on string labels (insertion sort by the
string order). -/
def insSortInsert (x : String) : List String → List String
  | [] => [x]
  | y :: ys => if pyStrLe x y then x :: y :: ys else y :: insSortInsert x ys

/-- Python `sorted(list(xs))` on string labels. -/
def insSort : List String → List String
  | [] => []
  | x :: xs => insSortInsert x (insSort xs)

/-- `itertools.combinations(keys, 2)`: all pairs in iteration order. -/
def combos {α : Type} : List α → List (α × α)
  | [] => []
  | x :: xs => xs.map (fun y => (x, y)) ++ combos xs

/-- The assertion block run for one pair of entries of a batch collection
(source lines 119–127 and 137–145).  Note that `rows2` is recomputed from
the FIRST entry of the pair (`cluster1`), exactly as in the source
(`rows2 = sorted(list(distances[cluster1].index.values))`), so the
row-label assertions compare `rows1` with itself. -/
def checkPair (f1 f2 : PDFrame) : Except PyErr Unit := do
  let columns1 := insSort f1.columns
  let columns2 := insSort f2.columns
  pyAssert (columns1.length == columns2.length)
  pyAssert (columns1 == columns2)
  let rows1 := insSort f1.index
  let rows2 := insSort f1.index
  pyAssert (rows1.length == rows2.length)
  pyAssert (rows1 == rows2)

/-- The pairwise assertion loop
`for cluster1,cluster2 in itertools.combinations(d.keys(),2): ...`. -/
def checkPairs (d : List (String × PDFrame)) : Except PyErr Unit :=
  (combos d).foldlM (fun _ p => checkPair p.1.2 p.2.2) ()

/-- The arguments handed to `pathogist.cluster.consensus` by the
`consensus` subcommand (line 153). -/
structure SolveCall where
  distances : List (String × PDFrame)
  clusterings : List (String × PDFrame)
  fineClusterings : List String
  deriving DecidableEq, Repr

/-- The `consensus` subcommand up to the call of
`pathogist.cluster.consensus` (lines 111–153): read the distance batch
list, assert pairwise sample-set agreement, read the clustering batch
list, assert pairwise agreement, read the fine-clusterings names
(`fine_clusterings.append(line.rstrip())`, no validation), and hand
everything to the solver. -/
def consensusCmd (resolveD resolveC : String → PDFrame)
    (distLines clustLines fineLines : List String) :
    Except PyErr SolveCall := do
  let distances ← readBatchList resolveD distLines
  checkPairs distances
  let clusterings ← readBatchList resolveC clustLines
  checkPairs clusterings
  let fine := fineLines.map pyRstrip
  pure ⟨distances, clusterings, fine⟩

/-! ## The `all` subcommand (`run_all`, lines 23–100)

`run_all` either copies the bundled blank configuration file
(`--new_config`) or loads the YAML configuration, validates its key sets
with three `assert`s, reads genotyping calls, builds distance matrices,
reads pre-built distance matrices, optionally matches sample sets, runs
per-modality correlation clustering, and finishes with consensus
clustering and output.  File, logging and solver effects are recorded as
events; the YAML parse and the external readers are supplied as oracles. -/

/-- Observable effects of `run_all`, in program order. -/
inductive Event where
  /-- `shutil.copyfile` of the blank configuration (line 31). -/
  | copyBlankConfig
  /-- `print("New configuration file written ...")` (line 32). -/
  | printNewConfigMsg
  /-- opening and YAML-parsing the configuration file (lines 34–36). -/
  | readConfigFile
  /-- `read_genotyping_calls[genotype](path)` for one modality (line 60). -/
  | readGenotypingCalls (g : String)
  /-- `create_genotype_distance[genotype](calls)` for one modality (line 68). -/
  | createDistanceMatrix (g : String)
  /-- `pathogist.io.open_distance_file(path)` for one modality (line 73). -/
  | readDistanceFile (g : String)
  /-- `logger.info('Warning: samples differ across the distance matrices.')`
  (line 79). -/
  | warnSampleMismatch
  /-- `pathogist.distance.match_distance_matrices(distances)` (line 81). -/
  | matchDistanceMatrices
  /-- `pathogist.cluster.correlation(...)` for one modality (line 93). -/
  | correlationCluster (g : String)
  /-- `pathogist.cluster.consensus(...)` (line 97). -/
  | consensusCluster
  /-- `pathogist.io.output_clustering(...)` (line 100). -/
  | writeClusteringOutput
  deriving DecidableEq, Repr

/-- How the process terminates when `run_all` does not finish normally;
every alternative is a non-zero process exit status. -/
inductive ExitStatus where
  /-- `sys.exit(1)` after a `yaml.YAMLError` (line 39). -/
  | yamlExit
  /-- an unhandled Python exception propagating out of `run_all`. -/
  | raised (e : PyErr)
  deriving DecidableEq, Repr

/-- The parsed YAML configuration: the mappings `distances`,
`genotyping` and `thresholds` as ordered key/value lists, the
`all_constraints` flag, the `fine_clusterings` name list, and the
`output` path. -/
structure Config where
  distances : List (String × String)
  genotyping : List (String × String)
  thresholds : List (String × Int)
  allConstraints : Bool
  fineClusterings : List String
  output : String

/-- The keys of a configuration mapping, in order. -/
def keyList {β : Type} (m : List (String × β)) : List String :=
  m.map Prod.fst

/-- Python `s & t == set()` on key sets. -/
def keysDisjointB (a b : List String) : Bool :=
  decide (∀ k ∈ a, k ∉ b)

/-- Python `s == t` on key sets (mutual containment). -/
def sameKeySetB (a b : List String) : Bool :=
  decide ((∀ k ∈ a, k ∈ b) ∧ (∀ k ∈ b, k ∈ a))

/-- Python `s <= t` on key sets. -/
def subsetKeysB (a b : List String) : Bool :=
  decide (∀ k ∈ a, k ∈ b)

/-- The three configuration `assert`s of `run_all` (lines 46–51):
`distances` and `genotyping` keys disjoint, `thresholds` keys equal to
their union, `fine_clusterings` a subset of that union. -/
def configChecksPass (c : Config) : Bool :=
  keysDisjointB (keyList c.distances) (keyList c.genotyping)
    && sameKeySetB (keyList c.thresholds)
        (keyList c.distances ++ keyList c.genotyping)
    && subsetKeysB c.fineClusterings
        (keyList c.distances ++ keyList c.genotyping)

/-- The valid keys of the `read_genotyping_calls` /
`create_genotype_distance` dispatch dictionaries (lines 55–57, 63–65). -/
def genotypeKinds : List String := ["SNP", "MLST", "CNV"]

/-- Python `d[k]` on an ordered dictionary: `KeyError` when absent. -/
def pyDictGet {β : Type} (d : List (String × β)) (k : String) :
    Except PyErr β :=
  match d.find? (fun p => p.1 = k) with
  | some p => .ok p.2
  | none => .error .keyError

/-- Python `set(xs)` where the elements of `xs` are themselves `set`
objects (line 78, `set(distance_matrix_samples)`): inserting an element
into a set hashes it, and Python's `set` type is unhashable, so the call
raises `TypeError` whenever `xs` is non-empty; `set([])` is the empty
set. -/
def pySetOfSets (xs : List (List String)) :
    Except PyErr (List (List String)) :=
  match xs with
  | [] => .ok []
  | _ :: _ => .error .typeError

/-- External collaborators of `run_all`, abstracted: the per-modality
call readers composed with the distance-matrix builders, the
distance-file reader, and `pathogist.distance.match_distance_matrices`. -/
structure RunAllEnv where
  callsMatrix : String → String → PDFrame
  readDistFile : String → PDFrame
  matchMatrices : List (String × PDFrame) → List (String × PDFrame)

/-- Lines 59–60: `calls[genotype] = read_genotyping_calls[genotype](path)`;
looking up an unknown genotype kind in the dispatch dictionary raises
`KeyError` before the read happens. -/
def readCallsLoop : List (String × String) →
    List Event × Except ExitStatus (List (String × String))
  | [] => ([], .ok [])
  | (g, path) :: rest =>
    if genotypeKinds.contains g then
      match readCallsLoop rest with
      | (evs, res) =>
        (Event.readGenotypingCalls g :: evs,
         res.map (fun calls => (g, path) :: calls))
    else ([], .error (.raised .keyError))

/-- Lines 67–68: `distances[genotype] = create_genotype_distance[genotype](calls[genotype])`. -/
def createMatricesLoop (env : RunAllEnv) : List (String × String) →
    List Event × Except ExitStatus (List (String × PDFrame))
  | [] => ([], .ok [])
  | (g, path) :: rest =>
    if genotypeKinds.contains g then
      match createMatricesLoop env rest with
      | (evs, res) =>
        (Event.createDistanceMatrix g :: evs,
         res.map (fun ds => (g, env.callsMatrix g path) :: ds))
    else ([], .error (.raised .keyError))

/-- Lines 72–73: `distances[genotype] = pathogist.io.open_distance_file(path)`
for every entry of `config['distances']`, extending the dictionary built
from the genotyping calls. -/
def readDistFilesLoop (env : RunAllEnv)
    (acc : List (String × PDFrame)) :
    List (String × String) → List Event × List (String × PDFrame)
  | [] => ([], acc)
  | (g, path) :: rest =>
    match readDistFilesLoop env (odInsert acc g (env.readDistFile path)) rest with
    | (evs, d) => (Event.readDistanceFile g :: evs, d)

/-- Lines 91–95: per-modality correlation clustering; evaluating the call
arguments looks up `thresholds[genotype]` (`KeyError` when absent). -/
def correlationLoop (thresholds : List (String × Int)) :
    List (String × PDFrame) → List Event × Except ExitStatus Unit
  | [] => ([], .ok ())
  | (g, _) :: rest =>
    match pyDictGet thresholds g with
    | .error e => ([], .error (.raised e))
    | .ok _ =>
      match correlationLoop thresholds rest with
      | (evs, res) => (Event.correlationCluster g :: evs, res)

/-- `run_all` (lines 23–100) as a trace function: the emitted events in
program order, and `some exit` when the process terminates with a
non-zero status instead of finishing.  `parsed` is the result of
`yaml.load` on the configuration file (`none` models a `yaml.YAMLError`);
it is consulted only in the branch that actually opens the file. -/
def runAll (env : RunAllEnv) (newConfig : Bool) (parsed : Option Config) :
    List Event × Option ExitStatus :=
  if newConfig then
    ([.copyBlankConfig, .printNewConfigMsg], none)
  else
    match parsed with
    | none => ([.readConfigFile], some .yamlExit)
    | some c =>
      if configChecksPass c = false then
        ([.readConfigFile], some (.raised .assertionError))
      else
        match readCallsLoop c.genotyping with
        | (e1, .error ex) => (.readConfigFile :: e1, some ex)
        | (e1, .ok calls) =>
          match createMatricesLoop env calls with
          | (e2, .error ex) => (.readConfigFile :: e1 ++ e2, some ex)
          | (e2, .ok fromCalls) =>
            match readDistFilesLoop env fromCalls c.distances with
            | (e3, distances) =>
              match pySetOfSets (distances.map (fun p => p.2.columns)) with
              | .error ex =>
                (.readConfigFile :: e1 ++ e2 ++ e3, some (.raised ex))
              | .ok sampleSets =>
                let (e4, distances') :=
                  if sampleSets.length > 1 then
                    ([Event.warnSampleMismatch, Event.matchDistanceMatrices],
                     env.matchMatrices distances)
                  else ([], distances)
                match correlationLoop c.thresholds distances' with
                | (e5, .error ex) =>
                  (.readConfigFile :: e1 ++ e2 ++ e3 ++ e4 ++ e5, some ex)
                | (e5, .ok _) =>
                  (.readConfigFile :: e1 ++ e2 ++ e3 ++ e4 ++ e5
                     ++ [.consensusCluster, .writeClusteringOutput], none)

/-- Events that belong to the computation phase of the pipeline: anything
beyond copying/printing the blank configuration and reading the
configuration file. -/
def isComputationEvent : Event → Bool
  | .copyBlankConfig => false
  | .printNewConfigMsg => false
  | .readConfigFile => false
  | _ => true

/-! ## The clustering solvers (spec-modelled)

The module `pathogist.cluster` (the correlation- and consensus-clustering
solvers invoked at lines 93, 97, 107 and 153) is not part of this
repository snapshot; the definitions below are modelled from the spec
(§4.2–§4.4): samples are `Fin n`, a partition is a cluster-label
assignment `Fin n → Fin n`, and two samples are co-clustered iff they get
the same label. -/

/-- The unordered sample pairs, as ordered pairs `(i, j)` with `i < j`,
in lexicographic order. -/
def pairList (n : Nat) : List (Fin n × Fin n) :=
  (List.finRange n).flatMap (fun i =>
    (List.finRange n).filterMap (fun j =>
      if i < j then some (i, j) else none))

/-- Modelled from the spec: the correlation-clustering penalty of one
sample pair (§4.2): a pair with dissimilarity below the threshold pays
`|value − θ|` when separated, a pair at or above the threshold pays the
same amount when co-clustered. -/
def pairPenalty {n : Nat} (d : Fin n → Fin n → Int) (θ : Int)
    (f : Fin n → Fin n) (i j : Fin n) : Nat :=
  if d i j < θ then (if f i = f j then 0 else (d i j - θ).natAbs)
  else (if f i = f j then (d i j - θ).natAbs else 0)

/-- Modelled from the spec: the correlation-clustering objective (§4.2),
the sum of the per-pair disagreement penalties. -/
def corrObjective (n : Nat) (d : Fin n → Fin n → Int) (θ : Int)
    (f : Fin n → Fin n) : Nat :=
  ((pairList n).map (fun p => pairPenalty d θ f p.1 p.2)).sum

/-- Modelled from the spec: with the all-constraints flag set the
transitivity constraints make the feasible set exactly the valid
partitions, so a solution of `pathogist.cluster.correlation` is a
partition whose objective is minimal among all partitions (§4.2–§4.3). -/
def IsCorrSolution (n : Nat) (d : Fin n → Fin n → Int) (θ : Int)
    (f : Fin n → Fin n) : Prop :=
  ∀ g : Fin n → Fin n, corrObjective n d θ f ≤ corrObjective n d θ g

instance (n : Nat) (d : Fin n → Fin n → Int) (θ : Int)
    (f : Fin n → Fin n) : Decidable (IsCorrSolution n d θ f) := by
  unfold IsCorrSolution; infer_instance

/-- Modelled from the spec: whether a triple has both a similar pair and a
dissimilar pair relative to the threshold ("mixed signs", §4.2); with the
all-constraints flag unset, only such triples receive transitivity
constraints. -/
def mixedTriple {n : Nat} (d : Fin n → Fin n → Int) (θ : Int)
    (i j k : Fin n) : Bool :=
  let s := [(i, j), (j, k), (i, k)].map (fun p => decide (d p.1 p.2 < θ))
  s.any id && s.any (fun b => !b)

/-- Modelled from the spec: the transitivity inequality
`same(i,j) + same(j,k) − same(i,k) ≤ 1` for one ordered triple (§4.2). -/
def transOK {n : Nat} (r : Fin n → Fin n → Bool) (i j k : Fin n) : Bool :=
  !(r i j && r j k) || r i k

/-- Modelled from the spec: feasibility of a 0/1 assignment to the
`same(i,j)` variables — reflexive, symmetric, and transitive on every
constrained triple (all triples when the all-constraints flag is set,
only mixed-sign triples otherwise, §4.2). -/
def feasibleR (n : Nat) (d : Fin n → Fin n → Int) (θ : Int) (allC : Bool)
    (r : Fin n → Fin n → Bool) : Bool :=
  (List.finRange n).all (fun i => r i i)
    && (List.finRange n).all (fun i => (List.finRange n).all (fun j =>
        r i j == r j i))
    && (List.finRange n).all (fun i => (List.finRange n).all (fun j =>
        (List.finRange n).all (fun k =>
          !(allC || mixedTriple d θ i j k) || transOK r i j k)))

/-- Modelled from the spec: the correlation objective evaluated on a raw
0/1 assignment to the `same(i,j)` variables. -/
def corrObjectiveR (n : Nat) (d : Fin n → Fin n → Int) (θ : Int)
    (r : Fin n → Fin n → Bool) : Nat :=
  ((pairList n).map (fun p =>
    if d p.1 p.2 < θ then (if r p.1 p.2 then 0 else (d p.1 p.2 - θ).natAbs)
    else (if r p.1 p.2 then (d p.1 p.2 - θ).natAbs else 0))).sum

/-- Deterministic selection of a minimizer: the earliest list element
achieving the minimal objective value ("tie-breaks by lexicographic
sample order" per §4.3). -/
def pickMin {α : Type} (obj : α → Nat) : List α → Option α
  | [] => none
  | x :: xs =>
    match pickMin obj xs with
    | none => some x
    | some y => if obj x ≤ obj y then some x else some y

/-- One step of reachability over the `same = 1` graph. -/
def boolStep (n : Nat) (r : Fin n → Fin n → Bool) :
    Fin n → Fin n → Bool :=
  fun i j => r i j || (List.finRange n).any (fun k => r i k && r k j)

/-- Reachability over the `same = 1` graph (`n`-fold step iteration). -/
def boolClosure (n : Nat) (r : Fin n → Fin n → Bool) :
    Fin n → Fin n → Bool :=
  (boolStep n)^[n] r

/-- Modelled from the spec: decoding a rounded assignment into a
partition — connected components of the `same = 1` graph, each component
labelled by its smallest sample (§4.3). -/
def decodeComponents (n : Nat) (r : Fin n → Fin n → Bool) :
    Fin n → Fin n :=
  fun i =>
    match (List.finRange n).find? (fun j => boolClosure n r j i || j == i) with
    | some j => j
    | none => i

/-- A 0/1 assignment to the `same(i,j)` variables, decoded from the bits
of a natural number (bit `i*n + j` is `same(i,j)`). -/
def decodeR (n : Nat) (b : Nat) : Fin n → Fin n → Bool :=
  fun i j => Nat.testBit b (i.val * n + j.val)

/-- The fixed enumeration of all 0/1 assignments to the `n²` pair
variables, in increasing order of their bit encoding. -/
def allAssignments (n : Nat) : List (Fin n → Fin n → Bool) :=
  (List.range (2 ^ (n * n))).map (decodeR n)

/-- Modelled from the spec: `pathogist.cluster.correlation` as a
deterministic function (§4.3) — enumerate the 0/1 assignments in a fixed
order, keep the feasible ones for the requested constraint density,
select the first minimizer of the objective, and decode it into a
partition. -/
def correlationSolve (n : Nat) (d : Fin n → Fin n → Int) (θ : Int)
    (allC : Bool) : Option (Fin n → Fin n) :=
  (pickMin (corrObjectiveR n d θ)
      ((allAssignments n).filter (feasibleR n d θ allC))).map
    (decodeComponents n)

/-- Modelled from the spec: the consensus-clustering objective (§4.4) —
for every modality `m` with weight `w m` and partition `parts m`, every
sample pair on which the candidate partition disagrees with `parts m`
contributes `w m`. -/
def consObjective (n k : Nat) (w : Fin k → Nat)
    (parts : Fin k → Fin n → Fin n) (f : Fin n → Fin n) : Nat :=
  ((List.finRange k).map (fun m =>
    w m * ((pairList n).map (fun p =>
      if ((f p.1 = f p.2) ↔ (parts m p.1 = parts m p.2)) then 0
      else 1)).sum)).sum

/-- Modelled from the spec: the hard constraints of the consensus model
(§4.4) — if a fine modality separates two samples, co-clustering them is
forbidden outright; fine modalities impose nothing where they merge. -/
def ConsFeasible (n k : Nat) (parts : Fin k → Fin n → Fin n)
    (fine : Fin k → Bool) (f : Fin n → Fin n) : Prop :=
  ∀ m : Fin k, fine m = true →
    ∀ i j : Fin n, parts m i ≠ parts m j → f i ≠ f j

instance (n k : Nat) (parts : Fin k → Fin n → Fin n) (fine : Fin k → Bool)
    (f : Fin n → Fin n) : Decidable (ConsFeasible n k parts fine f) := by
  unfold ConsFeasible; infer_instance

/-- Modelled from the spec: a solution of `pathogist.cluster.consensus`
(§4.4) — a partition satisfying every hard fine-separation constraint
whose weighted-disagreement objective is minimal among all such
partitions. -/
def IsConsensusSolution (n k : Nat) (w : Fin k → Nat)
    (parts : Fin k → Fin n → Fin n) (fine : Fin k → Bool)
    (f : Fin n → Fin n) : Prop :=
  ConsFeasible n k parts fine f ∧
    ∀ g : Fin n → Fin n, ConsFeasible n k parts fine g →
      consObjective n k w parts f ≤ consObjective n k w parts g

instance (n k : Nat) (w : Fin k → Nat) (parts : Fin k → Fin n → Fin n)
    (fine : Fin k → Bool) (f : Fin n → Fin n) :
    Decidable (IsConsensusSolution n k w parts fine f) := by
  unfold IsConsensusSolution; infer_instance

/-- The spec's 4-sample example (§8): samples A,B,C,D as `0,1,2,3`,
dissimilarities A–B = 1, C–D = 1, all cross pairs 9, diagonal 0. -/
def exampleD : Fin 4 → Fin 4 → Int := fun i j =>
  match i.val, j.val with
  | 0, 1 | 1, 0 | 2, 3 | 3, 2 => 1
  | 0, 0 | 1, 1 | 2, 2 | 3, 3 => 0
  | _, _ => 9

/-- The expected partition of the example: {A,B} and {C,D}. -/
def exampleTarget : Fin 4 → Fin 4 := fun i => if i.val < 2 then 0 else 1

theorem pySplitChar_ne_nil (sep : Char) (s : List Char) :
    pySplitChar sep s ≠ [] := by
  cases s with
  | nil => simp [pySplitChar]
  | cons c rest =>
    simp only [pySplitChar]
    by_cases h : c = sep
    · simp [h]
    · simp only [if_neg h]
      cases pySplitChar sep rest <;> simp

/-- The number of fields produced by Python `str.split(sep)` is the number
of occurrences of the separator plus one. -/
theorem pySplitChar_length (sep : Char) (s : List Char) :
    (pySplitChar sep s).length = s.count sep + 1 := by
  induction s with
  | nil => simp [pySplitChar]
  | cons c rest ih =>
    simp only [pySplitChar]
    by_cases h : c = sep
    · simp [h, List.count_cons, ih]
    · simp only [if_neg h]
      have hne := pySplitChar_ne_nil sep rest
      cases hps : pySplitChar sep rest with
      | nil => exact absurd hps hne
      | cons p ps =>
        have : (p :: ps).length = rest.count sep + 1 := hps ▸ ih
        simp only [List.length_cons] at this ⊢
        have hcnt : (c :: rest).count sep = rest.count sep := by
          simp [List.count_cons, h]
        omega

theorem parseBatchLine_isOk_iff (line : String) :
    (parseBatchLine line).isOk = true ↔ wellFormedLine line := by
  have hlen : (pySplit '=' (pyRstrip line)).length
      = (pyRstrip line).data.count '=' + 1 := by
    simp [pySplit, pySplitChar_length]
  constructor
  · intro h
    unfold parseBatchLine at h
    unfold wellFormedLine
    cases hsp : pySplit '=' (pyRstrip line) with
    | nil => rw [hsp] at h; simp [Except.isOk, Except.toBool] at h
    | cons a t =>
      cases t with
      | nil =>
        rw [hsp] at h; simp [Except.isOk, Except.toBool] at h
      | cons b t2 =>
        cases t2 with
        | nil => rw [hsp] at hlen; simp at hlen; omega
        | cons c t3 => rw [hsp] at h; simp [Except.isOk, Except.toBool] at h
  · intro h
    unfold wellFormedLine at h
    unfold parseBatchLine
    cases hsp : pySplit '=' (pyRstrip line) with
    | nil => rw [hsp] at hlen; simp at hlen
    | cons a t =>
      cases t with
      | nil => rw [hsp] at hlen; simp at hlen; omega
      | cons b t2 =>
        cases t2 with
        | nil => simp [Except.isOk, Except.toBool]
        | cons c t3 => rw [hsp] at hlen; simp at hlen; omega

theorem parseBatchLine_not_wf (line : String) (h : ¬ wellFormedLine line) :
    parseBatchLine line = .error .valueError := by
  have hok : ¬ (parseBatchLine line).isOk = true :=
    fun hk => h ((parseBatchLine_isOk_iff line).mp hk)
  unfold parseBatchLine at hok ⊢
  cases hsp : pySplit '=' (pyRstrip line) with
  | nil => rfl
  | cons a t =>
    cases t with
    | nil => rfl
    | cons b t2 =>
      cases t2 with
      | nil => rw [hsp] at hok; simp [Except.isOk, Except.toBool] at hok
      | cons c t3 => rfl

theorem parseBatchLine_wf (line : String) (h : wellFormedLine line) :
    ∃ v, parseBatchLine line = .ok v := by
  have hok : (parseBatchLine line).isOk = true :=
    (parseBatchLine_isOk_iff line).mpr h
  cases hp : parseBatchLine line with
  | ok v => exact ⟨v, rfl⟩
  | error e => rw [hp] at hok; simp [Except.isOk, Except.toBool] at hok

theorem odInsert_keys_fresh {β : Type} (d : List (String × β)) (k : String)
    (v : β) (h : k ∉ d.map Prod.fst) :
    (odInsert d k v).map Prod.fst = d.map Prod.fst ++ [k] := by
  have hany : d.any (fun p => p.1 = k) = false := by
    rw [List.any_eq_false]
    intro p hp
    simp only [decide_eq_true_eq]
    intro hpk
    exact h (List.mem_map.mpr ⟨p, hp, hpk⟩)
  unfold odInsert
  rw [hany]
  simp

theorem readBatchLoop_error {β : Type} (resolve : String → β) :
    ∀ (lines : List String) (acc : List (String × β)),
      (∃ l ∈ lines, ¬ wellFormedLine l) →
      readBatchLoop resolve acc lines = .error .valueError := by
  intro lines
  induction lines with
  | nil => intro acc h; obtain ⟨l, hl, _⟩ := h; exact absurd hl (by simp)
  | cons line rest ih =>
    intro acc h
    by_cases hwf : wellFormedLine line
    · obtain ⟨⟨name, path⟩, hp⟩ := parseBatchLine_wf line hwf
      have hrest : ∃ l ∈ rest, ¬ wellFormedLine l := by
        obtain ⟨l, hl, hnl⟩ := h
        rcases List.mem_cons.mp hl with heq | hmem
        · exact absurd hwf (heq ▸ hnl)
        · exact ⟨l, hmem, hnl⟩
      simp only [readBatchLoop, hp]
      exact ih _ hrest
    · have hp := parseBatchLine_not_wf line hwf
      simp only [readBatchLoop, hp]

theorem readBatchLoop_ok_keys {β : Type} (resolve : String → β) :
    ∀ (lines : List String) (acc : List (String × β)),
      (∀ l ∈ lines, wellFormedLine l) →
      (acc.map Prod.fst ++ batchNames lines).Nodup →
      ∃ d, readBatchLoop resolve acc lines = .ok d ∧
        d.map Prod.fst = acc.map Prod.fst ++ batchNames lines := by
  intro lines
  induction lines with
  | nil => intro acc _ _; exact ⟨acc, rfl, by simp [batchNames]⟩
  | cons line rest ih =>
    intro acc hwf hnd
    obtain ⟨⟨name, path⟩, hp⟩ := parseBatchLine_wf line (hwf line (by simp))
    have hnames : batchNames (line :: rest) = name :: batchNames rest := by
      simp [batchNames, hp, Except.toOption]
    rw [hnames] at hnd ⊢
    have hfresh : name ∉ acc.map Prod.fst := by
      intro hmem
      have := List.disjoint_of_nodup_append hnd
      exact this hmem (by simp)
    have hkeys := odInsert_keys_fresh acc name (resolve path) hfresh
    have hnd' : ((odInsert acc name (resolve path)).map Prod.fst
        ++ batchNames rest).Nodup := by
      rw [hkeys, List.append_assoc]
      simpa using hnd
    obtain ⟨d, hd, hdk⟩ := ih (odInsert acc name (resolve path))
      (fun l hl => hwf l (by simp [hl])) hnd'
    refine ⟨d, ?_, ?_⟩
    · simp only [readBatchLoop, hp]; exact hd
    · rw [hdk, hkeys, List.append_assoc]; rfl

theorem consensusCmd_ok_fine (resolveD resolveC : String → PDFrame)
    (dl cl fl : List String) (sc : SolveCall)
    (h : consensusCmd resolveD resolveC dl cl fl = .ok sc) :
    sc.fineClusterings = fl.map pyRstrip := by
  unfold consensusCmd at h
  simp only [Bind.bind] at h
  cases hd : readBatchList resolveD dl with
  | error e => rw [hd] at h; simp [Except.bind] at h
  | ok d =>
    rw [hd] at h
    simp only [Except.bind] at h
    cases hcd : checkPairs d with
    | error e => rw [hcd] at h; simp [Except.bind] at h
    | ok u =>
      rw [hcd] at h
      simp only [Except.bind] at h
      cases hc : readBatchList resolveC cl with
      | error e => rw [hc] at h; simp [Except.bind] at h
      | ok cs =>
        rw [hc] at h
        simp only [Except.bind] at h
        cases hcc : checkPairs cs with
        | error e => rw [hcc] at h; simp [Except.bind] at h
        | ok u2 =>
          rw [hcc] at h
          simp only [Except.bind, Pure.pure, Except.pure,
            Except.ok.injEq] at h
          rw [← h]

theorem pairList_mem (n : Nat) (i j : Fin n) (hij : i < j) :
    (i, j) ∈ pairList n := by
  unfold pairList
  rw [List.mem_flatMap]
  exact ⟨i, List.mem_finRange i, by
    rw [List.mem_filterMap]
    exact ⟨j, List.mem_finRange j, by simp [hij]⟩⟩

theorem natSum_eq_zero_iff (l : List Nat) :
    l.sum = 0 ↔ ∀ x ∈ l, x = 0 := by
  induction l with
  | nil => simp
  | cons a t ih => simp [List.sum_cons, Nat.add_eq_zero, ih]

theorem checksFalse_of_overlap (c : Config)
    (h : ∃ x, x ∈ keyList c.distances ∧ x ∈ keyList c.genotyping) :
    configChecksPass c = false := by
  obtain ⟨x, h1, h2⟩ := h
  have hd : ¬ (∀ k ∈ keyList c.distances, k ∉ keyList c.genotyping) :=
    fun hall => hall x h1 h2
  simp [configChecksPass, keysDisjointB, decide_eq_false hd]

theorem checksFalse_of_thresholds (c : Config)
    (h : ¬ ((∀ x ∈ keyList c.thresholds,
              x ∈ keyList c.distances ++ keyList c.genotyping)
           ∧ (∀ x ∈ keyList c.distances ++ keyList c.genotyping,
              x ∈ keyList c.thresholds))) :
    configChecksPass c = false := by
  simp [configChecksPass, sameKeySetB, decide_eq_false h]

theorem checksFalse_of_fine (c : Config)
    (h : ∃ x, x ∈ c.fineClusterings
          ∧ x ∉ keyList c.distances ++ keyList c.genotyping) :
    configChecksPass c = false := by
  obtain ⟨x, h1, h2⟩ := h
  have hf : ¬ (∀ k ∈ c.fineClusterings,
      k ∈ keyList c.distances ++ keyList c.genotyping) :=
    fun hall => h2 (hall x h1)
  simp only [configChecksPass, subsetKeysB, decide_eq_false hf,
    Bool.and_false, Bool.and_eq_false_imp]

/-! ## Claim theorems -/

/-- C1: if any modality named in the fine-modality list separates two
samples, a consensus solution never co-clusters them, whatever the
weights of the modalities are. -/
theorem consensus_respects_fine_separation (n k : Nat) (w : Fin k → Nat)
    (parts : Fin k → Fin n → Fin n) (fine : Fin k → Bool)
    (f : Fin n → Fin n) (h : IsConsensusSolution n k w parts fine f)
    (m : Fin k) (hm : fine m = true) (i j : Fin n)
    (hsep : parts m i ≠ parts m j) : f i ≠ f j :=
  h.1 m hm i j hsep

theorem consensus_respects_fine_separation_witness :
    (IsConsensusSolution 2 1 (fun _ => 1) (fun _ i => i) (fun _ => true)
        (fun i => i)
      ∧ (fun _ : Fin 1 => true) 0 = true
      ∧ (fun (_ : Fin 1) (i : Fin 2) => i) 0 0 ≠ (fun _ i => i) 0 1)
    ∧ (fun i : Fin 2 => i) 0 ≠ (fun i : Fin 2 => i) 1 :=
  ⟨⟨by decide, rfl, by decide⟩,
   consensus_respects_fine_separation 2 1 (fun _ => 1) (fun _ i => i)
     (fun _ => true) (fun i => i) (by decide) 0 rfl 0 1 (by decide)⟩

/-- C2 (code bug): the pairwise sample-set assertions of the `consensus`
subcommand recompute `rows2` from `cluster1` (lines 125 and 143), so a
row-label mismatch between two distance matrices with identical column
labels is not detected and the command reaches the solver call. -/
theorem consensus_row_mismatch_undetected :
    (PDFrame.mk ["A", "B"] ["A", "B"]).columns
        = (PDFrame.mk ["A", "B"] ["A", "C"]).columns
    ∧ insSort (PDFrame.mk ["A", "B"] ["A", "B"]).index
        ≠ insSort (PDFrame.mk ["A", "B"] ["A", "C"]).index
    ∧ (consensusCmd
        (fun p => if p = "m1" then PDFrame.mk ["A", "B"] ["A", "B"]
                  else PDFrame.mk ["A", "B"] ["A", "C"])
        (fun _ => PDFrame.mk ["A"] ["A"])
        ["X=m1", "Y=m2"] [] []).isOk = true := by
  refine ⟨rfl, by decide, by decide⟩

/-- C3 (code bug): line 78 of `run_all` applies `set` to a list whose
elements are themselves Python `set` objects, so with a single distance
matrix (all sample sets trivially identical) the pipeline raises
`TypeError` right after reading the matrix, instead of treating the
alignment step as a no-op. -/
theorem run_all_sample_set_check_raises :
    runAll
        ⟨fun _ _ => PDFrame.mk [] [], fun _ => PDFrame.mk ["A", "B"] ["A", "B"],
         fun d => d⟩
        false
        (some ⟨[("X", "p")], [], [("X", 0)], true, [], "o"⟩)
      = ([Event.readConfigFile, Event.readDistanceFile "X"],
         some (.raised .typeError)) := by
  decide

/-- C4: on the spec's 4-sample example with threshold 5 and all
constraints, every correlation-clustering solution induces exactly the
partition {A,B},{C,D}. -/
theorem correlation_example_partition (f : Fin 4 → Fin 4)
    (h : IsCorrSolution 4 exampleD 5 f) :
    ∀ i j : Fin 4, (f i = f j) ↔ (exampleTarget i = exampleTarget j) := by
  have key : ∀ g : Fin 4 → Fin 4, corrObjective 4 exampleD 5 g = 0 →
      ∀ i j : Fin 4, ((g i = g j) ↔ (exampleTarget i = exampleTarget j)) := by
    decide
  have ht : corrObjective 4 exampleD 5 exampleTarget = 0 := by decide
  have hle := h exampleTarget
  rw [ht] at hle
  exact key f (Nat.le_zero.mp hle)

theorem correlation_example_partition_witness :
    IsCorrSolution 4 exampleD 5 exampleTarget
    ∧ ∀ i j : Fin 4,
        (exampleTarget i = exampleTarget j)
          ↔ (exampleTarget i = exampleTarget j) :=
  ⟨by decide, correlation_example_partition exampleTarget (by decide)⟩

/-- C5: if every modality supplies the same partition `P` (same
co-clustering relation), any consensus solution induces exactly the
co-clustering relation of `P`. -/
theorem consensus_identical_inputs (n k : Nat) (w : Fin k → Nat)
    (parts : Fin k → Fin n → Fin n) (fine : Fin k → Bool)
    (P : Fin n → Fin n) (m₀ : Fin k) (hw : 0 < w m₀)
    (hsame : ∀ (m : Fin k) (i j : Fin n),
      (parts m i = parts m j) ↔ (P i = P j))
    (f : Fin n → Fin n) (h : IsConsensusSolution n k w parts fine f) :
    ∀ i j : Fin n, (f i = f j) ↔ (P i = P j) := by
  have hPfeas : ConsFeasible n k parts fine P := by
    intro m _ i j hsep hPij
    exact hsep ((hsame m i j).mpr hPij)
  have hP0 : consObjective n k w parts P = 0 := by
    unfold consObjective
    apply (natSum_eq_zero_iff _).mpr
    intro x hx
    rw [List.mem_map] at hx
    obtain ⟨m, _, hm⟩ := hx
    rw [← hm]
    have hin : ((pairList n).map (fun p =>
        if ((P p.1 = P p.2) ↔ (parts m p.1 = parts m p.2)) then 0
        else 1)).sum = 0 := by
      apply (natSum_eq_zero_iff _).mpr
      intro y hy
      rw [List.mem_map] at hy
      obtain ⟨p, _, hp⟩ := hy
      rw [← hp]
      rw [if_pos (hsame m p.1 p.2).symm]
    rw [hin, Nat.mul_zero]
  have hf0 : consObjective n k w parts f = 0 :=
    Nat.le_zero.mp (hP0 ▸ h.2 P hPfeas)
  unfold consObjective at hf0
  have hall := (natSum_eq_zero_iff _).mp hf0
  have hterm := hall _ (List.mem_map_of_mem _ (List.mem_finRange m₀))
  have hinner : ((pairList n).map (fun p =>
      if ((f p.1 = f p.2) ↔ (parts m₀ p.1 = parts m₀ p.2)) then 0
      else 1)).sum = 0 := by
    rcases Nat.mul_eq_zero.mp hterm with h1 | h2
    · omega
    · exact h2
  have hpair : ∀ i j : Fin n, i < j →
      ((f i = f j) ↔ (parts m₀ i = parts m₀ j)) := by
    intro i j hij
    have hm := (natSum_eq_zero_iff _).mp hinner _
      (List.mem_map_of_mem _ (pairList_mem n i j hij))
    by_contra hc
    rw [if_neg hc] at hm
    exact one_ne_zero hm
  intro i j
  rcases lt_trichotomy i j with hlt | heq | hgt
  · exact (hpair i j hlt).trans (hsame m₀ i j)
  · subst heq; simp
  · exact (eq_comm.trans ((hpair j i hgt).trans (hsame m₀ j i))).trans eq_comm

theorem consensus_identical_inputs_witness :
    (0 < (fun _ : Fin 2 => 1) (0 : Fin 2)
      ∧ IsConsensusSolution 4 2 (fun _ => 1) (fun _ => exampleTarget)
          (fun _ => false) exampleTarget)
    ∧ ∀ i j : Fin 4,
        (exampleTarget i = exampleTarget j)
          ↔ (exampleTarget i = exampleTarget j) :=
  ⟨⟨by decide, by decide⟩,
   consensus_identical_inputs 4 2 (fun _ => 1) (fun _ => exampleTarget)
     (fun _ => false) exampleTarget 0 (by decide)
     (fun _ _ _ => Iff.rfl) exampleTarget (by decide)⟩

/-- C6: with an unparsable configuration, or a configuration violating
any of the three key-set invariants, `run_all` terminates with a
non-zero status having done nothing beyond reading the configuration
file: no genotyping calls are read, no distance matrix is built or
read, and no clustering is computed. -/
theorem run_all_validation_gate (env : RunAllEnv) (parsed : Option Config)
    (h : parsed = none ∨ ∃ c, parsed = some c ∧
      ((∃ x, x ∈ keyList c.distances ∧ x ∈ keyList c.genotyping)
       ∨ ¬ ((∀ x ∈ keyList c.thresholds,
              x ∈ keyList c.distances ++ keyList c.genotyping)
           ∧ (∀ x ∈ keyList c.distances ++ keyList c.genotyping,
              x ∈ keyList c.thresholds))
       ∨ (∃ x, x ∈ c.fineClusterings
            ∧ x ∉ keyList c.distances ++ keyList c.genotyping))) :
    (runAll env false parsed).2.isSome = true
    ∧ ∀ e ∈ (runAll env false parsed).1, isComputationEvent e = false := by
  rcases h with hnone | ⟨c, hc, hviol⟩
  · subst hnone
    exact ⟨rfl, by intro e he; simp [runAll] at he; subst he; rfl⟩
  · subst hc
    have hfalse : configChecksPass c = false := by
      rcases hviol with h1 | h2 | h3
      · exact checksFalse_of_overlap c h1
      · exact checksFalse_of_thresholds c h2
      · exact checksFalse_of_fine c h3
    constructor
    · simp [runAll, hfalse]
    · intro e he
      simp [runAll, hfalse] at he
      subst he; rfl

theorem run_all_validation_gate_witness :
    ((some ⟨[("X", "p")], [("X", "q")], [("X", 0)], true, [], "o"⟩
        : Option Config) = none
      ∨ ∃ c, (some (⟨[("X", "p")], [("X", "q")], [("X", 0)], true, [], "o"⟩
        : Config)) = some c ∧
        ((∃ x, x ∈ keyList c.distances ∧ x ∈ keyList c.genotyping)
         ∨ ¬ ((∀ x ∈ keyList c.thresholds,
                x ∈ keyList c.distances ++ keyList c.genotyping)
             ∧ (∀ x ∈ keyList c.distances ++ keyList c.genotyping,
                x ∈ keyList c.thresholds))
         ∨ (∃ x, x ∈ c.fineClusterings
              ∧ x ∉ keyList c.distances ++ keyList c.genotyping)))
    ∧ ((runAll ⟨fun _ _ => PDFrame.mk [] [], fun _ => PDFrame.mk [] [],
          fun d => d⟩ false
        (some ⟨[("X", "p")], [("X", "q")], [("X", 0)], true, [], "o"⟩)).2.isSome
          = true
      ∧ ∀ e ∈ (runAll ⟨fun _ _ => PDFrame.mk [] [], fun _ => PDFrame.mk [] [],
          fun d => d⟩ false
        (some ⟨[("X", "p")], [("X", "q")], [("X", 0)], true, [], "o"⟩)).1,
          isComputationEvent e = false) :=
  ⟨.inr ⟨_, rfl, .inl ⟨"X", by decide, by decide⟩⟩,
   run_all_validation_gate _ _ (.inr ⟨_, rfl, .inl ⟨"X", by decide, by decide⟩⟩)⟩

/-- C8: the `consensus` subcommand performs no validation of the
fine-modality names — whenever it reaches the solver, the name list is
passed through verbatim (stripped lines, bogus names included) — whereas
the `run_all` configuration check fails whenever `fine_clusterings` is
not a subset of the known modality names. -/
theorem consensus_fine_list_unchecked (resolveD resolveC : String → PDFrame)
    (dl cl fl : List String) (sc : SolveCall)
    (h : consensusCmd resolveD resolveC dl cl fl = .ok sc)
    (c : Config)
    (hf : ∃ x, x ∈ c.fineClusterings
          ∧ x ∉ keyList c.distances ++ keyList c.genotyping) :
    sc.fineClusterings = fl.map pyRstrip ∧ configChecksPass c = false :=
  ⟨consensusCmd_ok_fine resolveD resolveC dl cl fl sc h,
   checksFalse_of_fine c hf⟩

theorem consensus_fine_list_unchecked_witness :
    (SolveCall.mk [("X", PDFrame.mk ["A"] ["A"])]
        [("X", PDFrame.mk ["A"] ["A"])] ["BOGUS"]).fineClusterings
      = ["BOGUS"].map pyRstrip
    ∧ configChecksPass ⟨[("X", "p")], [], [("X", 0)], true, ["BOGUS"], "o"⟩
      = false :=
  consensus_fine_list_unchecked
    (fun _ => PDFrame.mk ["A"] ["A"]) (fun _ => PDFrame.mk ["A"] ["A"])
    ["X=p"] ["X=q"] ["BOGUS"] _ rfl
    ⟨[("X", "p")], [], [("X", 0)], true, ["BOGUS"], "o"⟩
    ⟨"BOGUS", by decide, by decide⟩

/-- C9: each batch-list line is `rstrip`ped, split on every `'='`, and
unpacked into exactly two values: a parse succeeds iff the stripped line
contains exactly one `'='`; any malformed line makes the whole read raise
`ValueError`; and when all lines are well formed (with distinct names)
the resulting ordered dictionary lists the names in file order. -/
theorem consensus_batch_list_protocol {β : Type} (resolve : String → β)
    (lines : List String) :
    (∀ l ∈ lines,
      ((parseBatchLine l).isOk = true ↔ (pyRstrip l).data.count '=' = 1))
    ∧ ((∃ l ∈ lines, ¬ wellFormedLine l) →
        readBatchList resolve lines = .error .valueError)
    ∧ ((∀ l ∈ lines, wellFormedLine l) → (batchNames lines).Nodup →
        ∃ d, readBatchList resolve lines = .ok d
          ∧ d.map Prod.fst = batchNames lines) := by
  refine ⟨fun l _ => parseBatchLine_isOk_iff l, ?_, ?_⟩
  · intro hbad
    exact readBatchLoop_error resolve lines [] hbad
  · intro hwf hnd
    have := readBatchLoop_ok_keys resolve lines [] hwf (by simpa using hnd)
    simpa [readBatchList] using this

theorem consensus_batch_list_protocol_witness :
    readBatchList (fun _ => (0 : Nat)) ["a=1", "bad", "x=y=z"]
        = .error .valueError
    ∧ ∃ d, readBatchList (fun _ => (0 : Nat)) ["snp=f1", "mlst=f2"] = .ok d
        ∧ d.map Prod.fst = batchNames ["snp=f1", "mlst=f2"] :=
  ⟨(consensus_batch_list_protocol (fun _ => (0 : Nat))
      ["a=1", "bad", "x=y=z"]).2.1 ⟨"bad", by decide, by decide⟩,
   (consensus_batch_list_protocol (fun _ => (0 : Nat))
      ["snp=f1", "mlst=f2"]).2.2 (by decide) (by decide)⟩

/-- C10: with the new-config flag, `run_all` only copies the blank
configuration file and prints a message: the configuration is neither
read nor validated, and no reading, clustering or output event occurs. -/
theorem run_all_new_config_only_copies (env : RunAllEnv)
    (parsed : Option Config) :
    runAll env true parsed
      = ([Event.copyBlankConfig, Event.printNewConfigMsg], none) := rfl

/-- C7: the correlation-clustering solve is a deterministic function of
the dissimilarity matrix, the threshold and the all-constraints flag —
two calls on pointwise-equal matrices with the same threshold and flag
return identical partitions. -/
theorem correlation_solve_deterministic (n : Nat)
    (d₁ d₂ : Fin n → Fin n → Int) (θ : Int) (allC : Bool)
    (h : ∀ i j, d₁ i j = d₂ i j) :
    correlationSolve n d₁ θ allC = correlationSolve n d₂ θ allC := by
  have hd : d₁ = d₂ := funext fun i => funext fun j => h i j
  rw [hd]

theorem correlation_solve_deterministic_witness :
    correlationSolve 2 (fun _ _ => 0) 1 true
      = correlationSolve 2 (fun _ _ => 0) 1 true :=
  correlation_solve_deterministic 2 (fun _ _ => 0) (fun _ _ => 0) 1 true
    (fun _ _ => rfl)

end PathoGiST
